import Mathlib

/-!
Shallow embedding of the Idyllic Python Litestar application
(`src/idyllic_python/main.py`): an in-memory user store with an
auto-incrementing ID counter, request handlers for the HTTP routes, the
pydantic-style body validation of `POST /users`, and the singleton
storage provider wired into the app by `create_app`.

Python dictionaries preserve insertion order and overwrite values in
place, so `users_db : Dict[int, Dict[str, Any]]` is modelled as an
insertion-ordered association list with a `dictInsert` operation that
replaces the value of an existing key in place and appends fresh keys.
Python integers are unbounded, so IDs are `Int`.
-/

namespace IdyllicPython

/-- JSON values, as produced by Python's json layer (object fields keep
their textual order; a duplicated key keeps the last occurrence). -/
inductive Json where
  | null : Json
  | bool (b : Bool) : Json
  | num (n : Int) : Json
  | str (s : String) : Json
  | arr (elems : List Json) : Json
  | obj (fields : List (String × Json)) : Json

/-- Field lookup on a JSON object: Python's json parser keeps the last
occurrence of a duplicated key, hence the search from the right. On a
non-object this returns `none`. -/
def Json.getField : Json → String → Option Json
  | .obj fields, key => (fields.reverse.find? (fun p => p.1 == key)).map Prod.snd
  | _, _ => none

/-- The user record dict `{"id": ..., "name": ..., "email": ...}` built by
`UserStorage.create_user` (and the shape of `UserResponse`). -/
structure User where
  id : Int
  name : String
  email : String
deriving DecidableEq, Repr

/-- Serialization of a `User` record to its JSON response body. -/
def userToJson (u : User) : Json :=
  .obj [("id", .num u.id), ("name", .str u.name), ("email", .str u.email)]

/-- `UserStorage`: `users_db : Dict[int, Dict[str, Any]]` as an
insertion-ordered association list, plus the `next_user_id` counter. -/
structure UserStorage where
  users_db : List (Int × User)
  next_user_id : Int
deriving DecidableEq, Repr

/-- `UserStorage.__init__`: empty dict, counter starts at 1. -/
def UserStorage.empty : UserStorage := { users_db := [], next_user_id := 1 }

/-- Python dict assignment `db[k] = v`: overwrites the value of an existing
key in place (keeping its position in insertion order), appends otherwise. -/
def dictInsert (db : List (Int × User)) (k : Int) (v : User) : List (Int × User) :=
  if db.any (fun p => p.1 == k) then
    db.map (fun p => if p.1 == k then (k, v) else p)
  else
    db ++ [(k, v)]

/-- `UserStorage.get_all_users`: `list(self.users_db.values())`. -/
def UserStorage.get_all_users (s : UserStorage) : List User :=
  s.users_db.map Prod.snd

/-- `UserStorage.get_user`: `self.users_db.get(user_id)`. -/
def UserStorage.get_user (s : UserStorage) (user_id : Int) : Option User :=
  (s.users_db.find? (fun p => p.1 == user_id)).map Prod.snd

/-- `UserStorage.create_user`: builds the record under the current
`next_user_id`, stores it, increments the counter, returns the record. -/
def UserStorage.create_user (s : UserStorage) (name email : String) :
    User × UserStorage :=
  let user_data : User := { id := s.next_user_id, name := name, email := email }
  (user_data,
    { users_db := dictInsert s.users_db s.next_user_id user_data,
      next_user_id := s.next_user_id + 1 })

/-- The `UserCreateRequest` pydantic model: two required `str` fields. -/
structure UserCreateRequest where
  name : String
  email : String
deriving DecidableEq, Repr

/-- Deserialization of a request body into `UserCreateRequest` (pydantic
v2 defaults, as Litestar applies them): the body must be a JSON object
carrying both `name` and `email` as JSON strings; numbers, booleans and
null are not coerced to `str`; extra fields are ignored; the empty string
is a valid `str`. -/
def parseUserCreateRequest (body : Json) : Option UserCreateRequest :=
  match body.getField "name", body.getField "email" with
  | some (.str n), some (.str e) => some { name := n, email := e }
  | _, _ => none

/-- Whether both `name` and `email` are present as JSON text, i.e. whether
the body deserializes into `UserCreateRequest`. -/
def bothFieldsText (body : Json) : Bool :=
  match body.getField "name", body.getField "email" with
  | some (.str _), some (.str _) => true
  | _, _ => false

/-- An HTTP response: status code and JSON body. -/
structure HttpResponse where
  status : Nat
  body : Json

/-- `GET /health` handler. -/
def health_check : HttpResponse :=
  ⟨200, .obj [("status", .str "healthy"), ("message", .str "Service is running")]⟩

/-- `GET /` handler. -/
def root : HttpResponse :=
  ⟨200, .obj [("message", .str "Welcome to Idyllic Python API!")]⟩

/-- `GET /hello/{name}` handler. -/
def hello_name (name : String) : HttpResponse :=
  ⟨200, .obj [("message", .str ("Hello, " ++ name ++ "!"))]⟩

/-- `GET /users` handler. -/
def get_users_handler (user_storage : UserStorage) : HttpResponse :=
  ⟨200, .obj [("users", .arr (user_storage.get_all_users.map userToJson))]⟩

/-- Body of the Litestar `NotFoundException` response raised by
`get_user` with `detail=f"User with ID \x7buser_id\x7d not found"`. -/
def notFoundBody (user_id : Int) : Json :=
  .obj [("status_code", .num 404),
        ("detail", .str ("User with ID " ++ toString user_id ++ " not found"))]

/-- `GET /users/{user_id}` handler. -/
def get_user_handler (user_id : Int) (user_storage : UserStorage) : HttpResponse :=
  match user_storage.get_user user_id with
  | none => ⟨404, notFoundBody user_id⟩
  | some u => ⟨200, userToJson u⟩

/-- Body of Litestar's 400 response when the request body fails
`UserCreateRequest` validation. -/
def validationErrorBody : Json :=
  .obj [("status_code", .num 400), ("detail", .str "Validation failed")]

/-- `POST /users` handler: Litestar validates the body against
`UserCreateRequest` before invoking the handler; on failure it answers 400
without touching the storage, on success the handler calls
`create_user` and echoes the returned record with status 201. -/
def create_user_handler (body : Json) (user_storage : UserStorage) :
    HttpResponse × UserStorage :=
  match parseUserCreateRequest body with
  | none => (⟨400, validationErrorBody⟩, user_storage)
  | some data =>
      let r := user_storage.create_user data.name data.email
      (⟨201, userToJson r.1⟩, r.2)

/-- The class-level state of `UserStorageProvider`: its `_instance`
class attribute. -/
structure ProviderState where
  _instance : Option UserStorage
deriving DecidableEq, Repr

/-- `UserStorageProvider.get_instance`: lazily creates the singleton. -/
def get_instance (st : ProviderState) : UserStorage × ProviderState :=
  match st._instance with
  | none => (UserStorage.empty, ⟨some UserStorage.empty⟩)
  | some s => (s, st)

/-- `UserStorageProvider.reset_instance`. -/
def reset_instance (_st : ProviderState) : ProviderState := ⟨none⟩

/-- `get_user_storage`, the dependency provider function. -/
def get_user_storage (st : ProviderState) : UserStorage × ProviderState :=
  get_instance st

/-- A Litestar app as far as user storage is concerned: the dependency
provider it wires under the `user_storage` key. -/
structure App where
  user_storage_provider : ProviderState → UserStorage × ProviderState

/-- `create_app`: registers the handlers and wires
`Provide(get_user_storage)` as the `user_storage` dependency. -/
def create_app : App := ⟨get_user_storage⟩

/-- `POST /users` served through the app: the dependency layer fetches the
singleton storage, the handler runs, and the in-place mutation of the
storage object is visible through the class attribute afterwards. -/
def postUsersEndpoint (body : Json) (st : ProviderState) :
    HttpResponse × ProviderState :=
  let s := (get_user_storage st).1
  let r := create_user_handler body s
  (r.1, ⟨some r.2⟩)

/-- `GET /users/{user_id}` served through the app. -/
def getUserEndpoint (user_id : Int) (st : ProviderState) :
    HttpResponse × ProviderState :=
  let s := (get_user_storage st).1
  (get_user_handler user_id s, (get_user_storage st).2)

/-- `GET /users` served through the app. -/
def getUsersEndpoint (st : ProviderState) : HttpResponse × ProviderState :=
  let s := (get_user_storage st).1
  (get_users_handler s, (get_user_storage st).2)

/-- Run a sequence of `create_user` calls (name, email pairs) on a fresh
`UserStorage`, returning the final storage. -/
def runCreates (ops : List (String × String)) : UserStorage :=
  ops.foldl (fun s p => (s.create_user p.1 p.2).2) UserStorage.empty

/-- Run a sequence of `create_user` calls from a given storage, collecting
the returned `User` records in call order. -/
def runCreatesUsers : List (String × String) → UserStorage → List User × UserStorage
  | [], s => ([], s)
  | (n, e) :: rest, s =>
      let r := s.create_user n e
      let rr := runCreatesUsers rest r.2
      (r.1 :: rr.1, rr.2)

/-- The IDs returned by a sequence of `create_user` calls on a fresh
storage, in call order. -/
def assignedIds (ops : List (String × String)) : List Int :=
  ((runCreatesUsers ops UserStorage.empty).1).map User.id

/-- The users a trace of create calls produces, in creation order, when
the first one receives ID `next`: the specification's reading of
"insertion (creation) order". -/
def createdUsers (next : Int) : List (String × String) → List User
  | [] => []
  | (n, e) :: rest => { id := next, name := n, email := e } :: createdUsers (next + 1) rest

/-- The association-list entries corresponding to `createdUsers`. -/
def createdEntries (next : Int) (ops : List (String × String)) : List (Int × User) :=
  (createdUsers next ops).map (fun u => (u.id, u))


theorem find?_map_overwrite (db : List (Int × User)) (k : Int) (v : User)
    (h : db.any (fun p => p.1 == k) = true) :
    (db.map (fun p => if p.1 == k then (k, v) else p)).find? (fun p => p.1 == k) =
      some (k, v) := by
  induction db with
  | nil => simp at h
  | cons p rest ih =>
    rw [List.map_cons]
    by_cases hp : p.1 = k
    · rw [if_pos (by simpa using hp), List.find?_cons_of_pos _ (by simp)]
    · have hpf : (p.1 == k) = false := by simpa using hp
      rw [if_neg (by simpa using hp), List.find?_cons_of_neg _ (by simp [hpf])]
      apply ih
      rw [List.any_cons, hpf] at h
      simpa using h

theorem find?_dictInsert (db : List (Int × User)) (k : Int) (v : User) :
    (dictInsert db k v).find? (fun p => p.1 == k) = some (k, v) := by
  unfold dictInsert
  cases hany : db.any (fun p => p.1 == k) with
  | true =>
    rw [if_pos rfl]
    exact find?_map_overwrite db k v hany
  | false =>
    rw [if_neg (by simp)]
    have hnone : db.find? (fun p => p.1 == k) = none := by
      rw [List.find?_eq_none]
      intro x hx
      exact fun hcon => (List.any_eq_false.mp hany x hx) hcon
    rw [List.find?_append, hnone]
    simp [List.find?_cons]

theorem get_user_create (s : UserStorage) (n e : String) :
    ((s.create_user n e).2).get_user ((s.create_user n e).1).id =
      some ((s.create_user n e).1) := by
  simp [UserStorage.create_user, UserStorage.get_user, find?_dictInsert]

theorem dictInsert_fresh (db : List (Int × User)) (k : Int) (v : User)
    (h : ∀ p ∈ db, p.1 ≠ k) :
    dictInsert db k v = db ++ [(k, v)] := by
  unfold dictInsert
  rw [if_neg]
  intro hcon
  obtain ⟨p, hp, hpk⟩ := List.any_eq_true.mp hcon
  exact h p hp (by simpa using hpk)

theorem createdUsers_cons (next : Int) (n e : String) (rest : List (String × String)) :
    createdUsers next ((n, e) :: rest) =
      { id := next, name := n, email := e } :: createdUsers (next + 1) rest := rfl

theorem createdEntries_cons (next : Int) (n e : String) (rest : List (String × String)) :
    createdEntries next ((n, e) :: rest) =
      (next, { id := next, name := n, email := e }) :: createdEntries (next + 1) rest := rfl

theorem create_user_fresh (s : UserStorage) (n e : String)
    (hs : ∀ p ∈ s.users_db, p.1 < s.next_user_id) :
    s.create_user n e =
      ({ id := s.next_user_id, name := n, email := e },
       { users_db := s.users_db ++
           [(s.next_user_id, { id := s.next_user_id, name := n, email := e })],
         next_user_id := s.next_user_id + 1 }) := by
  simp [UserStorage.create_user, dictInsert_fresh _ _ _ (fun p hp => (hs p hp).ne)]

theorem runCreatesUsers_spec (ops : List (String × String)) :
    ∀ s : UserStorage, (∀ p ∈ s.users_db, p.1 < s.next_user_id) →
    runCreatesUsers ops s =
      (createdUsers s.next_user_id ops,
       { users_db := s.users_db ++ createdEntries s.next_user_id ops,
         next_user_id := s.next_user_id + ops.length }) := by
  induction ops with
  | nil =>
    intro s hs
    simp [runCreatesUsers, createdUsers, createdEntries]
  | cons op rest ih =>
    intro s hs
    obtain ⟨n, e⟩ := op
    have hstep := create_user_fresh s n e hs
    have hs' : ∀ p ∈ (s.create_user n e).2.users_db,
        p.1 < (s.create_user n e).2.next_user_id := by
      rw [hstep]
      dsimp only
      intro p hp
      rcases List.mem_append.mp hp with h | h
      · have := hs p h
        omega
      · rw [List.mem_singleton] at h
        subst h
        dsimp only
        omega
    have hrec := ih (s.create_user n e).2 hs'
    simp only [runCreatesUsers]
    rw [hrec, hstep]
    dsimp only
    rw [createdUsers_cons, createdEntries_cons]
    simp only [Prod.mk.injEq, UserStorage.mk.injEq, List.append_assoc,
      List.singleton_append, List.length_cons]
    refine ⟨trivial, trivial, ?_⟩
    push_cast
    ring

theorem runCreatesUsers_snd (ops : List (String × String)) :
    ∀ s, (runCreatesUsers ops s).2 =
      ops.foldl (fun s p => (s.create_user p.1 p.2).2) s := by
  induction ops with
  | nil =>
    intro s
    simp [runCreatesUsers]
  | cons op rest ih =>
    intro s
    obtain ⟨n, e⟩ := op
    simp only [runCreatesUsers, List.foldl_cons]
    exact ih (s.create_user n e).2

theorem runCreates_eq (ops : List (String × String)) :
    runCreates ops = (runCreatesUsers ops UserStorage.empty).2 :=
  (runCreatesUsers_snd ops UserStorage.empty).symm

theorem runCreates_spec (ops : List (String × String)) :
    runCreates ops =
      { users_db := createdEntries 1 ops, next_user_id := 1 + ops.length } := by
  rw [runCreates_eq,
    runCreatesUsers_spec ops UserStorage.empty (by simp [UserStorage.empty])]
  simp [UserStorage.empty]

theorem createdUsers_map_id (ops : List (String × String)) :
    ∀ next : Int, (createdUsers next ops).map User.id =
      (List.range ops.length).map (fun i : Nat => next + (i : Int)) := by
  induction ops with
  | nil =>
    intro next
    simp [createdUsers]
  | cons op rest ih =>
    intro next
    obtain ⟨n, e⟩ := op
    rw [createdUsers_cons, List.map_cons, ih (next + 1), List.length_cons,
      List.range_succ_eq_map, List.map_cons, List.map_map]
    have hfun : ((fun i : Nat => next + (i : Int)) ∘ Nat.succ) =
        fun i : Nat => (next + 1) + (i : Int) := by
      funext i
      simp only [Function.comp_apply, Nat.succ_eq_add_one]
      push_cast
      ring
    rw [hfun]
    simp

theorem mem_createdUsers_bounds (ops : List (String × String)) :
    ∀ (next : Int) (u : User), u ∈ createdUsers next ops →
      next ≤ u.id ∧ u.id < next + ops.length := by
  induction ops with
  | nil =>
    intro next u hu
    simp [createdUsers] at hu
  | cons op rest ih =>
    intro next u hu
    obtain ⟨n, e⟩ := op
    rw [createdUsers_cons, List.mem_cons] at hu
    rcases hu with h | h
    · subst h
      simp only [List.length_cons]
      push_cast
      omega
    · have := ih (next + 1) u h
      simp only [List.length_cons]
      push_cast at this ⊢
      omega

theorem mem_createdUsers_get (ops : List (String × String)) :
    ∀ (next : Int) (u : User), u ∈ createdUsers next ops →
      ∃ i, ∃ h : i < ops.length,
        u.id = next + (i : Int) ∧ u.name = (ops.get ⟨i, h⟩).1 ∧
        u.email = (ops.get ⟨i, h⟩).2 := by
  induction ops with
  | nil =>
    intro next u hu
    simp [createdUsers] at hu
  | cons op rest ih =>
    intro next u hu
    obtain ⟨n, e⟩ := op
    rw [createdUsers_cons, List.mem_cons] at hu
    rcases hu with h | h
    · subst h
      exact ⟨0, by simp, by simp, rfl, rfl⟩
    · obtain ⟨i, hi, h1, h2, h3⟩ := ih (next + 1) u h
      refine ⟨i + 1, by simpa using Nat.succ_lt_succ hi, ?_, ?_, ?_⟩
      · push_cast at h1 ⊢
        omega
      · rw [List.get_cons_succ]
        exact h2
      · rw [List.get_cons_succ]
        exact h3

theorem mem_createdEntries (ops : List (String × String)) (next : Int)
    (p : Int × User) (hp : p ∈ createdEntries next ops) :
    p.1 = p.2.id ∧ p.2 ∈ createdUsers next ops := by
  unfold createdEntries at hp
  obtain ⟨u, hu, hpu⟩ := List.mem_map.mp hp
  subst hpu
  exact ⟨rfl, hu⟩

theorem runCreates_keys (ops : List (String × String)) :
    ∀ p ∈ (runCreates ops).users_db,
      p.1 = p.2.id ∧ 1 ≤ p.1 ∧ p.1 < 1 + ops.length := by
  intro p hp
  rw [runCreates_spec] at hp
  obtain ⟨h1, h2⟩ := mem_createdEntries ops 1 p hp
  have := mem_createdUsers_bounds ops 1 p.2 h2
  exact ⟨h1, by omega, by omega⟩

theorem parse_isSome_eq (body : Json) :
    (parseUserCreateRequest body).isSome = bothFieldsText body := by
  unfold parseUserCreateRequest bothFieldsText
  rcases body.getField "name" with _ | jn <;>
    rcases body.getField "email" with _ | je <;>
    first
      | rfl
      | (cases jn <;> rfl)
      | (cases je <;> rfl)
      | (cases jn <;> cases je <;> rfl)

/-- Claim C2: on one Store instance the IDs handed out by successive
`create_user` calls are 1, 2, 3, ..., strictly increasing, and never
repeated. -/
theorem claim_C2 (ops : List (String × String)) :
    assignedIds ops = (List.range ops.length).map (fun i : Nat => (i : Int) + 1) ∧
    List.Pairwise (· < ·) (assignedIds ops) ∧
    (assignedIds ops).Nodup := by
  have h : assignedIds ops =
      (List.range ops.length).map (fun i : Nat => 1 + (i : Int)) := by
    unfold assignedIds
    rw [runCreatesUsers_spec ops UserStorage.empty (by simp [UserStorage.empty])]
    exact createdUsers_map_id ops 1
  have hpair : List.Pairwise (· < ·) (assignedIds ops) := by
    rw [h, List.pairwise_map]
    exact (List.pairwise_lt_range _).imp (by intro a b hab; omega)
  refine ⟨?_, hpair, hpair.imp (fun hab => ne_of_lt hab)⟩
  rw [h]
  apply List.map_congr_left
  intro a _
  omega

/-- Claim C7: `GET /users` lists all stored users in creation order, with
no error conditions, and a fresh store serializes to an empty users
array. -/
theorem claim_C7 :
    (∀ ops, (runCreates ops).get_all_users = createdUsers 1 ops) ∧
    get_users_handler UserStorage.empty = ⟨200, .obj [("users", .arr [])]⟩ ∧
    ∀ s : UserStorage, get_users_handler s =
      ⟨200, .obj [("users", .arr (s.get_all_users.map userToJson))]⟩ := by
  refine ⟨?_, rfl, fun s => rfl⟩
  intro ops
  rw [runCreates_spec]
  unfold UserStorage.get_all_users createdEntries
  rw [List.map_map]
  have hcomp : (Prod.snd ∘ fun u : User => (u.id, u)) = id := rfl
  rw [hcomp, List.map_id]

/-- Claim C8: `GET /health` and `GET /` return 200 with their fixed JSON
payloads, independent of any storage. -/
theorem claim_C8 :
    health_check = ⟨200, .obj [("status", .str "healthy"),
      ("message", .str "Service is running")]⟩ ∧
    root = ⟨200, .obj [("message", .str "Welcome to Idyllic Python API!")]⟩ :=
  ⟨rfl, rfl⟩

/-- Claim C5: `GET /users/{id}` answers 404 exactly when the store has no
user under that ID, with a detail message naming the ID; a stored user is
returned as 200 JSON; the lookup leaves the storage untouched. -/
theorem claim_C5 (user_id : Int) (s : UserStorage) :
    ((get_user_handler user_id s).status = 404 ↔ s.get_user user_id = none) ∧
    (s.get_user user_id = none →
      (get_user_handler user_id s).body.getField "detail" =
        some (.str ("User with ID " ++ toString user_id ++ " not found"))) ∧
    (∀ u, s.get_user user_id = some u →
      get_user_handler user_id s = ⟨200, userToJson u⟩) ∧
    (∀ st : ProviderState, st._instance = some s →
      (getUserEndpoint user_id st).2 = st) := by
  refine ⟨?_, ?_, ?_, ?_⟩
  · unfold get_user_handler
    cases hg : s.get_user user_id with
    | none => simp
    | some u => simp
  · intro h
    unfold get_user_handler
    rw [h]
    rfl
  · intro u h
    unfold get_user_handler
    rw [h]
  · intro st h
    obtain ⟨inst⟩ := st
    simp only at h
    subst h
    rfl

theorem claim_C5_witness :
    (get_user_handler 999 UserStorage.empty).status = 404 ∧
    (get_user_handler 999 UserStorage.empty).body.getField "detail" =
      some (.str "User with ID 999 not found") ∧
    (getUserEndpoint 999 ⟨some UserStorage.empty⟩).2 = ⟨some UserStorage.empty⟩ := by
  have h := claim_C5 999 UserStorage.empty
  exact ⟨h.1.mpr rfl, h.2.1 rfl, h.2.2.2 ⟨some UserStorage.empty⟩ rfl⟩

/-- Claim C6 (as stated): a `POST /users` whose body fails validation
answers 400 and leaves the store untouched: same state, same counter,
and `GET /users` unchanged. -/
theorem claim_C6 (body : Json) (s : UserStorage)
    (h : parseUserCreateRequest body = none) :
    (create_user_handler body s).1.status = 400 ∧
    (create_user_handler body s).2 = s ∧
    (create_user_handler body s).2.next_user_id = s.next_user_id ∧
    get_users_handler (create_user_handler body s).2 = get_users_handler s := by
  unfold create_user_handler
  rw [h]
  exact ⟨rfl, rfl, rfl, rfl⟩

theorem claim_C6_witness :
    parseUserCreateRequest (Json.obj [("name", Json.str "John Doe")]) = none ∧
    (create_user_handler (Json.obj [("name", Json.str "John Doe")])
      UserStorage.empty).1.status = 400 ∧
    (create_user_handler (Json.obj [("name", Json.str "John Doe")])
      UserStorage.empty).2 = UserStorage.empty := by
  have hp : parseUserCreateRequest (Json.obj [("name", Json.str "John Doe")]) =
      none := rfl
  have h := claim_C6 (Json.obj [("name", Json.str "John Doe")]) UserStorage.empty hp
  exact ⟨hp, h.1, h.2.1⟩

/-- Claim C1, counterexample to the claim as stated: a body whose `name`
is present but is the empty string is accepted with 201, not rejected
with 400 — pydantic `str` fields do not require non-emptiness. -/
theorem claim_C1_counterexample :
    (Json.obj [("name", Json.str ""), ("email", Json.str "jane@example.com")]).getField
      "name" = some (Json.str "") ∧
    (create_user_handler
      (Json.obj [("name", Json.str ""), ("email", Json.str "jane@example.com")])
      UserStorage.empty).1.status = 201 ∧
    (create_user_handler
      (Json.obj [("name", Json.str ""), ("email", Json.str "jane@example.com")])
      UserStorage.empty).1.status ≠ 400 := by
  refine ⟨rfl, rfl, ?_⟩
  have h : (create_user_handler
      (Json.obj [("name", Json.str ""), ("email", Json.str "jane@example.com")])
      UserStorage.empty).1.status = 201 := rfl
  rw [h]
  omega

/-- Claim C1 as amended: a `POST /users` body missing `name` or `email`,
or carrying either as a non-string, is rejected with 400 without touching
the store; every body carrying both fields as JSON text (empty strings
included) is accepted with 201. -/
theorem claim_C1 (body : Json) (s : UserStorage) :
    ((create_user_handler body s).1.status =
      if bothFieldsText body then 201 else 400) ∧
    (bothFieldsText body = false → (create_user_handler body s).2 = s) := by
  cases hb : bothFieldsText body with
  | false =>
    have hnone : parseUserCreateRequest body = none := by
      have hs := parse_isSome_eq body
      rw [hb] at hs
      exact Option.not_isSome_iff_eq_none.mp (by simp [hs])
    unfold create_user_handler
    rw [hnone]
    exact ⟨rfl, fun _ => rfl⟩
  | true =>
    have hsome : (parseUserCreateRequest body).isSome = true := by
      rw [parse_isSome_eq, hb]
    obtain ⟨data, hdata⟩ := Option.isSome_iff_exists.mp hsome
    unfold create_user_handler
    rw [hdata]
    exact ⟨rfl, fun hcon => absurd hcon (by simp)⟩

theorem claim_C1_witness :
    bothFieldsText (Json.obj []) = false ∧
    (create_user_handler (Json.obj []) UserStorage.empty).1.status = 400 ∧
    (create_user_handler (Json.obj []) UserStorage.empty).2 = UserStorage.empty := by
  have h := claim_C1 (Json.obj []) UserStorage.empty
  refine ⟨rfl, ?_, h.2 rfl⟩
  have h1 := h.1
  rw [show bothFieldsText (Json.obj []) = false from rfl] at h1
  exact h1

theorem runCreates_keys_lt (ops : List (String × String)) :
    ∀ p ∈ (runCreates ops).users_db, p.1 < (runCreates ops).next_user_id := by
  intro p hp
  obtain ⟨h1, h2, h3⟩ := runCreates_keys ops p hp
  rw [runCreates_spec]
  exact h3

/-- Claim C3: a successful `POST /users` reports exactly the record the
store created: the response is the serialized record, its `id` field is
the key the record is stored under, and the store resolves that key to
the same record. -/
theorem claim_C3 (ops : List (String × String)) (body : Json)
    (data : UserCreateRequest) (h : parseUserCreateRequest body = some data) :
    ∃ u : User,
      (create_user_handler body (runCreates ops)).1 = ⟨201, userToJson u⟩ ∧
      ((create_user_handler body (runCreates ops)).1).body.getField "id" =
        some (.num u.id) ∧
      ((create_user_handler body (runCreates ops)).2).get_user u.id = some u ∧
      (u.id, u) ∈ ((create_user_handler body (runCreates ops)).2).users_db := by
  unfold create_user_handler
  rw [h]
  dsimp only
  refine ⟨((runCreates ops).create_user data.name data.email).1, rfl, rfl, ?_, ?_⟩
  · exact get_user_create (runCreates ops) data.name data.email
  · rw [create_user_fresh _ _ _ (runCreates_keys_lt ops)]
    simp

theorem claim_C3_witness :
    ∃ u : User,
      (create_user_handler (Json.obj [("name", Json.str "John Doe"),
        ("email", Json.str "john.doe@example.com")]) (runCreates [])).1 =
        ⟨201, userToJson u⟩ ∧
      ((create_user_handler (Json.obj [("name", Json.str "John Doe"),
        ("email", Json.str "john.doe@example.com")]) (runCreates [])).1).body.getField
        "id" = some (.num u.id) ∧
      ((create_user_handler (Json.obj [("name", Json.str "John Doe"),
        ("email", Json.str "john.doe@example.com")]) (runCreates [])).2).get_user
        u.id = some u ∧
      (u.id, u) ∈ ((create_user_handler (Json.obj [("name", Json.str "John Doe"),
        ("email", Json.str "john.doe@example.com")]) (runCreates [])).2).users_db :=
  claim_C3 [] (Json.obj [("name", Json.str "John Doe"),
    ("email", Json.str "john.doe@example.com")])
    { name := "John Doe", email := "john.doe@example.com" } rfl

theorem count_createdUsers_of_ge (ops : List (String × String)) (u : User)
    (hu : (1 : Int) + ops.length ≤ u.id) :
    (createdUsers 1 ops).count u = 0 := by
  rw [List.count_eq_zero]
  intro hmem
  have h := mem_createdUsers_bounds ops 1 u hmem
  omega

/-- Claim C4: an accepted `POST /users` yields a user that `GET
/users/{id}` returns unchanged (same id, name, email) and that occurs
exactly once in the list `GET /users` serializes. -/
theorem claim_C4 (ops : List (String × String)) (body : Json)
    (data : UserCreateRequest) (h : parseUserCreateRequest body = some data) :
    ∃ u : User,
      (create_user_handler body (runCreates ops)).1 = ⟨201, userToJson u⟩ ∧
      u.name = data.name ∧ u.email = data.email ∧
      get_user_handler u.id (create_user_handler body (runCreates ops)).2 =
        ⟨200, userToJson u⟩ ∧
      ((create_user_handler body (runCreates ops)).2).get_all_users.count u = 1 ∧
      get_users_handler (create_user_handler body (runCreates ops)).2 =
        ⟨200, .obj [("users", .arr (((create_user_handler body
          (runCreates ops)).2).get_all_users.map userToJson))]⟩ := by
  unfold create_user_handler
  rw [h]
  dsimp only
  refine ⟨((runCreates ops).create_user data.name data.email).1,
    rfl, rfl, rfl, ?_, ?_, rfl⟩
  · unfold get_user_handler
    rw [get_user_create (runCreates ops) data.name data.email]
  · rw [create_user_fresh _ _ _ (runCreates_keys_lt ops), runCreates_spec]
    unfold UserStorage.get_all_users
    dsimp only
    rw [List.map_append, List.count_append]
    have h1 : (createdEntries 1 ops).map Prod.snd = createdUsers 1 ops := by
      unfold createdEntries
      rw [List.map_map]
      have hcomp : (Prod.snd ∘ fun u : User => (u.id, u)) = id := rfl
      rw [hcomp, List.map_id]
    rw [h1, count_createdUsers_of_ge ops _ (by dsimp only; omega)]
    simp [List.count_singleton]

theorem claim_C4_witness :
    ∃ u : User,
      (create_user_handler (Json.obj [("name", Json.str "John Doe"),
        ("email", Json.str "john.doe@example.com")]) (runCreates [])).1 =
        ⟨201, userToJson u⟩ ∧
      u.name = "John Doe" ∧ u.email = "john.doe@example.com" ∧
      get_user_handler u.id (create_user_handler (Json.obj [("name",
        Json.str "John Doe"), ("email", Json.str "john.doe@example.com")])
        (runCreates [])).2 = ⟨200, userToJson u⟩ ∧
      ((create_user_handler (Json.obj [("name", Json.str "John Doe"),
        ("email", Json.str "john.doe@example.com")])
        (runCreates [])).2).get_all_users.count u = 1 ∧
      get_users_handler (create_user_handler (Json.obj [("name",
        Json.str "John Doe"), ("email", Json.str "john.doe@example.com")])
        (runCreates [])).2 =
        ⟨200, .obj [("users", .arr (((create_user_handler (Json.obj [("name",
          Json.str "John Doe"), ("email", Json.str "john.doe@example.com")])
          (runCreates [])).2).get_all_users.map userToJson))]⟩ :=
  claim_C4 [] (Json.obj [("name", Json.str "John Doe"),
    ("email", Json.str "john.doe@example.com")])
    { name := "John Doe", email := "john.doe@example.com" } rfl

/-- Claim C9: every app made by `create_app` wires the same
`get_user_storage` provider; the provider returns the same storage
instance on every call until `reset_instance`, which makes the next call
produce a fresh store; hence a user created through one app instance is
served by `GET /users/{id}` through any other. -/
theorem claim_C9 (a1 a2 : App) (h1 : a1 = create_app) (h2 : a2 = create_app) :
    (a1.user_storage_provider = a2.user_storage_provider ∧
     a1.user_storage_provider = get_user_storage) ∧
    (∀ st : ProviderState,
      get_user_storage ((get_user_storage st).2) = get_user_storage st) ∧
    (∀ st : ProviderState,
      get_user_storage (reset_instance st) =
        (UserStorage.empty, ⟨some UserStorage.empty⟩)) ∧
    (∀ (st : ProviderState) (body : Json) (data : UserCreateRequest),
      parseUserCreateRequest body = some data →
      ∃ u : User,
        (postUsersEndpoint body st).1 = ⟨201, userToJson u⟩ ∧
        (getUserEndpoint u.id (postUsersEndpoint body st).2).1 =
          ⟨200, userToJson u⟩) := by
  subst h1
  subst h2
  refine ⟨⟨rfl, rfl⟩, ?_, ?_, ?_⟩
  · intro st
    obtain ⟨inst⟩ := st
    cases inst <;> rfl
  · intro st
    rfl
  · intro st body data h
    refine ⟨(((get_user_storage st).1).create_user data.name data.email).1, ?_, ?_⟩
    · unfold postUsersEndpoint create_user_handler
      rw [h]
    · unfold postUsersEndpoint create_user_handler
      rw [h]
      dsimp only
      unfold getUserEndpoint get_user_storage get_instance get_user_handler
      dsimp only
      rw [get_user_create]

theorem claim_C9_witness :
    create_app.user_storage_provider = get_user_storage ∧
    get_user_storage ((get_user_storage ⟨none⟩).2) = get_user_storage ⟨none⟩ ∧
    (∃ u : User,
      (postUsersEndpoint (Json.obj [("name", Json.str "John Doe"),
        ("email", Json.str "john.doe@example.com")]) ⟨none⟩).1 =
        ⟨201, userToJson u⟩ ∧
      (getUserEndpoint u.id (postUsersEndpoint (Json.obj [("name",
        Json.str "John Doe"), ("email", Json.str "john.doe@example.com")])
        ⟨none⟩).2).1 = ⟨200, userToJson u⟩) := by
  have h := claim_C9 create_app create_app rfl rfl
  exact ⟨h.1.2, h.2.1 ⟨none⟩, h.2.2.2 ⟨none⟩ (Json.obj [("name",
    Json.str "John Doe"), ("email", Json.str "john.doe@example.com")])
    { name := "John Doe", email := "john.doe@example.com" } rfl⟩

/-- Claim C10: every entry of the store mapping reached by a trace of
creates is consistent: its key is the record's `id`, and the record's
`name` and `email` are the arguments of the create call that produced
it (the call that was handed that ID). -/
theorem claim_C10 (ops : List (String × String)) (entry : Int × User)
    (h : entry ∈ (runCreates ops).users_db) :
    entry.1 = entry.2.id ∧
    ∃ i, ∃ hi : i < ops.length,
      entry.2.id = (i : Int) + 1 ∧
      entry.2.name = (ops.get ⟨i, hi⟩).1 ∧
      entry.2.email = (ops.get ⟨i, hi⟩).2 := by
  rw [runCreates_spec] at h
  dsimp only at h
  obtain ⟨h1, h2⟩ := mem_createdEntries ops 1 entry h
  obtain ⟨i, hi, hid, hn, he⟩ := mem_createdUsers_get ops 1 entry.2 h2
  refine ⟨h1, i, hi, by omega, hn, he⟩

theorem claim_C10_witness :
    ((1 : Int), ({ id := 1, name := "John Doe", email := "john.doe@example.com" } : User)) ∈ (runCreates [("John Doe", "john.doe@example.com")]).users_db ∧
    (1 : Int) = ({ id := 1, name := "John Doe", email := "john.doe@example.com" } : User).id := by
  have hmem : ((1 : Int), ({ id := 1, name := "John Doe", email := "john.doe@example.com" } : User)) ∈ (runCreates [("John Doe", "john.doe@example.com")]).users_db := by
    show _ ∈ [((1 : Int), ({ id := 1, name := "John Doe", email := "john.doe@example.com" } : User))]
    exact List.mem_singleton.mpr rfl
  have h := claim_C10 [("John Doe", "john.doe@example.com")] _ hmem
  exact ⟨hmem, h.1⟩

end IdyllicPython
